import Mathlib

/-!
Shallow embedding of the `derenzo_phantom` repository (files `phantom.py` and
`derenzo_log.py`).  Python floats are modelled as real numbers, Python lists as
Lean lists, and Python exceptions as `Except` values.  Every definition below is
translated from the source code; comments cite the corresponding lines.
-/

namespace Derenzo

/-- Embeds `DerenzoSection.row_height`: `self.well_sep * np.sqrt(3)` (phantom.py line 204). -/
noncomputable def rowHeight (well_sep : ℝ) : ℝ := well_sep * Real.sqrt 3

/-- The `num_rows` computation (phantom.py lines 207-209):
`h_section = self.R - (2 * self.section_offset + self.well_sep)` and
`int(np.floor(h_section / self.row_height))`. -/
noncomputable def numRowsCalc (R well_sep section_offset : ℝ) : ℤ :=
  ⌊(R - (2 * section_offset + well_sep)) / rowHeight well_sep⌋

/-- The x-offsets of one lattice row: `np.arange(-rn, rn, 2) + 1`
(phantom.py line 243), i.e. the `rn` integers `-rn+1, -rn+3, ..., rn-1`. -/
def rowXs (rn : ℕ) : List ℤ := (List.range rn).map (fun k => 2 * (k : ℤ) - (rn : ℤ) + 1)

/-- Embeds `DerenzoSection.num_wells`: `np.sum(1 + np.arange(self.num_rows))`
(phantom.py lines 212-213).  `np.arange` of a non-positive count is empty,
which `Int.toNat` reproduces. -/
def numWellsOf (num_rows : ℤ) : ℕ := ((List.range num_rows.toNat).map (fun i => i + 1)).sum

/-- The well-centre list built by `place_wells_in_section` (phantom.py lines
240-246): for each row index `i` (Python `range(num_rows)`, empty when
`num_rows <= 0`), with `rn = i + 1`, the points
`(x * well_sep, -(section_offset + row_height * rn))` for `x` in `rowXs rn`. -/
noncomputable def sectionLocs (well_sep section_offset : ℝ) (num_rows : ℤ) : List (ℝ × ℝ) :=
  (List.range num_rows.toNat).flatMap (fun i =>
    (rowXs (i + 1)).map (fun x : ℤ =>
      ((x : ℝ) * well_sep, -(section_offset + rowHeight well_sep * ((i : ℝ) + 1)))))

/-- One of the six sub-sections of the phantom (`DerenzoSection`, phantom.py
lines 182-261).  `warned` records whether the construction emitted the
"Cannot fit multiple features" warning (phantom.py lines 237-239). -/
structure DerenzoSection where
  R : ℝ
  well_sep : ℝ
  r : ℝ
  section_offset : ℝ
  warned : Prop
  locs : List (ℝ × ℝ)
  label_xy : ℝ × ℝ

/-- The final `section_offset` after `place_wells_in_section`'s fallback
(phantom.py lines 235-236): the attribute starts at `R * 0.1` and is reset to
`0.0` when the first row count is `<= 1`. -/
noncomputable def finalOffset (R well_sep : ℝ) : ℝ :=
  if numRowsCalc R well_sep (R * 0.1) ≤ 1 then 0 else R * 0.1

/-- Embeds `DerenzoSection.__init__` together with `place_wells_in_section`
(phantom.py lines 186-246), with the default `section_offset=0.1`.  The
mutation sequence of the source is folded into the final field values:
`section_offset` is `R*0.1` reset to `0` when the first row count is `<= 1`,
the warning fires when the recomputed row count is still `<= 1`, and `locs`
is rebuilt from the final offset and final row count. -/
noncomputable def mkSectionCore (phantom_radius well_separation : ℝ) : DerenzoSection :=
  { R := phantom_radius
    well_sep := well_separation
    r := well_separation / 2
    section_offset := finalOffset phantom_radius well_separation
    warned := numRowsCalc phantom_radius well_separation (phantom_radius * 0.1) ≤ 1 ∧
              numRowsCalc phantom_radius well_separation 0 ≤ 1
    locs := sectionLocs well_separation (finalOffset phantom_radius well_separation)
              (numRowsCalc phantom_radius well_separation
                (finalOffset phantom_radius well_separation))
    label_xy := (0, -1.1 * phantom_radius) }

open scoped Classical in
/-- Python raises when `well_separation == 0`: `row_height` is `0.0`, the
division in `num_rows` yields `inf`/`nan`, and `int(np.floor(...))` raises
`OverflowError`/`ValueError` (phantom.py line 209).  All other inputs
construct successfully. -/
noncomputable def mkSection (phantom_radius well_separation : ℝ) :
    Except String DerenzoSection :=
  if well_separation = 0 then Except.error "OverflowError"
  else Except.ok (mkSectionCore phantom_radius well_separation)

/-- Embeds the `DerenzoSection.num_rows` property (phantom.py lines 206-209), recomputed
from the current attribute values. -/
noncomputable def DerenzoSection.num_rows (s : DerenzoSection) : ℤ :=
  numRowsCalc s.R s.well_sep s.section_offset

/-- Embeds the `DerenzoSection.num_wells` property (phantom.py lines 211-213). -/
noncomputable def DerenzoSection.num_wells (s : DerenzoSection) : ℕ :=
  numWellsOf s.num_rows

/-- Embeds the `DerenzoSection.well_area` property: `np.pi * self.r**2` (phantom.py lines 215-217). -/
noncomputable def DerenzoSection.well_area (s : DerenzoSection) : ℝ :=
  Real.pi * s.r ^ 2

/-- Embeds the `DerenzoSection.total_area` property: `self.num_wells * self.well_area`
(phantom.py lines 219-221). -/
noncomputable def DerenzoSection.total_area (s : DerenzoSection) : ℝ :=
  (s.num_wells : ℝ) * s.well_area

/-- One application of the rotation matrix in `apply_rotation` (phantom.py
lines 248-261): `th = -1 * deg * (np.pi / 180)`,
`rot_mat = [[cos th, -sin th], [sin th, cos th]]`, and `np.dot(l, rot_mat)`
is the vector-matrix product `(x cos th + y sin th, -x sin th + y cos th)`. -/
noncomputable def rotatePoint (deg : ℝ) (p : ℝ × ℝ) : ℝ × ℝ :=
  (p.1 * Real.cos (-deg * (Real.pi / 180)) + p.2 * Real.sin (-deg * (Real.pi / 180)),
   -(p.1 * Real.sin (-deg * (Real.pi / 180))) + p.2 * Real.cos (-deg * (Real.pi / 180)))

/-- Embeds `DerenzoSection.apply_rotation` (phantom.py lines 248-261): rotates every
well location and the label location. -/
noncomputable def applyRotation (deg : ℝ) (s : DerenzoSection) : DerenzoSection :=
  { s with locs := s.locs.map (rotatePoint deg), label_xy := rotatePoint deg s.label_xy }

/-- The cylindrical phantom (`DerenzoPhantom`, phantom.py lines 8-120). -/
structure DerenzoPhantom where
  radius : ℝ
  depth : ℝ
  sections : List DerenzoSection

/-- The rotation angles `np.arange(0, 360., 360. / 6)` (phantom.py line 57). -/
def sectionAngles : List ℝ := [0, 60, 120, 180, 240, 300]

/-- The body of `DerenzoPhantom.__init__` (phantom.py lines 49-60): one
section per element of `zip(well_separations, sectionAngles)` (Python's `zip`
truncates to the shorter sequence), each rotated by its angle. -/
noncomputable def mkPhantomCore (radius : ℝ) (well_separations : List ℝ)
    (cyl_height : ℝ) : DerenzoPhantom :=
  { radius := radius
    depth := cyl_height
    sections := (well_separations.zip sectionAngles).map
      (fun fa => applyRotation fa.2 (mkSectionCore radius fa.1)) }

open scoped Classical in
/-- Embeds `DerenzoPhantom.__init__` as a fallible call: the only possible exception
is the `OverflowError` from a section whose `well_sep` is `0` (see
`mkSection`); there is no validation of the sequence length or of signs. -/
noncomputable def mkDerenzoPhantom (radius : ℝ) (well_separations : List ℝ)
    (cyl_height : ℝ) : Except String DerenzoPhantom :=
  if ∀ fa ∈ well_separations.zip sectionAngles, fa.1 ≠ (0 : ℝ) then
    Except.ok (mkPhantomCore radius well_separations cyl_height)
  else Except.error "OverflowError"

/-- Embeds the `DerenzoPhantom.area` property: `np.sum([s.total_area for s in self.sections])`
(phantom.py lines 75-77). -/
noncomputable def DerenzoPhantom.area (p : DerenzoPhantom) : ℝ :=
  (p.sections.map DerenzoSection.total_area).sum

/-- Embeds the `DerenzoPhantom.num_wells` property (phantom.py lines 79-81). -/
noncomputable def DerenzoPhantom.num_wells (p : DerenzoPhantom) : ℕ :=
  (p.sections.map DerenzoSection.num_wells).sum

/-- One line of the emitted Geant4 macro text (derenzo_log.py lines 45-60). -/
inductive MacLine where
  | particleGamma : MacLine
  | posType : String → MacLine
  | posShape : String → MacLine
  | centre : ℝ → ℝ → ℝ → MacLine
  | posRadius : ℝ → MacLine
  | halfzLine : ℝ → MacLine
  | angIso : MacLine
  | eneTypeMono : MacLine
  | eneMono : ℝ → MacLine
  | beamOn : ℝ → MacLine

/-- Embeds `export_to_G4mac` (derenzo_log.py lines 40-61): the block of lines written
for one well.  `halfz is None` selects the 2D `Plane`/`Circle` branch; any
`float` value (including `0.0`) selects `Volume`/`Cylinder` and appends the
`/gps/pos/halfz` line. -/
def export_to_G4mac (x y z r energy num_evs : ℝ) (halfz : Option ℝ) : List MacLine :=
  match halfz with
  | none =>
      [MacLine.particleGamma, MacLine.posType "Plane", MacLine.posShape "Circle",
       MacLine.centre x y z, MacLine.posRadius r,
       MacLine.angIso, MacLine.eneTypeMono, MacLine.eneMono energy, MacLine.beamOn num_evs]
  | some h =>
      [MacLine.particleGamma, MacLine.posType "Volume", MacLine.posShape "Cylinder",
       MacLine.centre x y z, MacLine.posRadius r, MacLine.halfzLine h,
       MacLine.angIso, MacLine.eneTypeMono, MacLine.eneMono energy, MacLine.beamOn num_evs]

/-- The per-section event count of `export_to_G4gps_macro` (phantom.py lines
107-115): the `event_mode` dispatch, raising `ValueError` on an unrecognized
mode.  Note the `equal_counts` branch divides by `self.num_wells` with no
guard against zero. -/
noncomputable def sectionEvents (p : DerenzoPhantom) (num_events : ℝ)
    (event_mode : String) (s : DerenzoSection) : Except String ℝ :=
  if event_mode = "equal_activity" then
    Except.ok (num_events * (s.well_area / p.area))
  else if event_mode = "equal_counts" then
    Except.ok (num_events / (p.num_wells : ℝ))
  else if event_mode = "subsection_area" then
    Except.ok (num_events * (s.total_area / p.area))
  else Except.error "ValueError"

/-- The block written for one well by `export_to_G4gps_macro` (phantom.py
lines 118-120): note `halfz=self.depth` — a `float`, never `None`, so the
`Plane`/`Circle` branch of `export_to_G4mac` is unreachable from the phantom. -/
noncomputable def wellBlock (p : DerenzoPhantom) (gamma_en ne : ℝ)
    (s : DerenzoSection) (xy : ℝ × ℝ) : List MacLine :=
  export_to_G4mac xy.1 xy.2 0 s.r gamma_en ne (some p.depth)

/-- The section loop of `export_to_G4gps_macro` (phantom.py lines 106-120):
`acc` is the text written to the file handle so far; a `ValueError` aborts the
loop, leaving `acc` on disk. -/
noncomputable def exportLoop (p : DerenzoPhantom) (num_events gamma_en : ℝ)
    (event_mode : String) : List DerenzoSection → List MacLine →
    Except String Unit × List MacLine
  | [], acc => (Except.ok (), acc)
  | s :: rest, acc =>
    match sectionEvents p num_events event_mode s with
    | Except.error e => (Except.error e, acc)
    | Except.ok ne =>
        exportLoop p num_events gamma_en event_mode rest
          (acc ++ s.locs.flatMap (wellBlock p gamma_en ne s))

/-- The state of the target file after an export call: `created` is whether
the file now exists on disk. -/
structure FileState where
  created : Bool
  contents : List MacLine

/-- Embeds the export method of `DerenzoPhantom` (phantom.py lines 90-120).
`with open(fname, 'w')` creates (or truncates) the file before the section
loop runs, so the file exists on disk even when the loop raises. -/
noncomputable def export_to_G4gps (p : DerenzoPhantom) (num_events gamma_en : ℝ)
    (event_mode : String) : Except String Unit × FileState :=
  let res := exportLoop p num_events gamma_en event_mode p.sections []
  (res.1, { created := true, contents := res.2 })

/-- The background image built by `to_image` before the section loop
(phantom.py lines 128-142): pixel `(i, j)` is masked (`np.nan`, modelled as
`none`) iff its distance from the image centre exceeds `r * px_mm`, and `0`
otherwise. -/
noncomputable def backgroundPixel (img_side : ℕ) (R : ℝ) (i j : ℕ) : Option ℝ :=
  let px_mm : ℝ := (img_side : ℝ) / (2 * R)
  let c := (img_side : ℝ) / 2
  if Real.sqrt (((i : ℝ) - c) ^ 2 + ((j : ℝ) - c) ^ 2) > R * px_mm then none else some 0

/-- Embeds `DerenzoPhantom.to_image` (phantom.py lines 122-167).  An unrecognized
`event_mode` raises `ValueError` (line 127).  Otherwise the section loop
evaluates `self.mm_to_px(...)` (line 158); but `mm_to_px` is declared with the
`@property` decorator while taking three required positional arguments
(lines 169-170), so the attribute access itself raises `TypeError` as soon as
the loop body runs — i.e. whenever the phantom has at least one section. -/
noncomputable def to_image (p : DerenzoPhantom) (img_side : ℕ) (num_events : ℝ)
    (event_mode : String) : Except String (ℕ → ℕ → Option ℝ) :=
  if event_mode ≠ "equal_activity" ∧ event_mode ≠ "equal_counts" then
    Except.error "ValueError"
  else
    match p.sections with
    | [] => Except.ok (backgroundPixel img_side p.radius)
    | _ :: _ => Except.error "TypeError"

/-! ### Helper lemmas -/

lemma sqrt3_sq : Real.sqrt 3 ^ 2 = 3 := Real.sq_sqrt (by norm_num)

lemma sqrt3_pos : 0 < Real.sqrt 3 := Real.sqrt_pos.mpr (by norm_num)

lemma sqrt3_ge_one : 1 ≤ Real.sqrt 3 := by nlinarith [sqrt3_sq, sqrt3_pos]

/-- Row-count value for `R = 50`, `f = 10` at the initial offset:
`floor(30 / (10 sqrt 3)) = 1`. -/
lemma nr_50_10_off : numRowsCalc 50 10 (50 * 0.1) = 1 := by
  unfold numRowsCalc rowHeight
  rw [Int.floor_eq_iff]
  push_cast
  constructor
  · rw [le_div_iff₀ (by positivity)]
    nlinarith [sqrt3_sq, sqrt3_pos]
  · rw [div_lt_iff₀ (by positivity)]
    nlinarith [sqrt3_sq, sqrt3_pos]

/-- Row-count value for `R = 50`, `f = 10` at offset `0`:
`floor(40 / (10 sqrt 3)) = 2`. -/
lemma nr_50_10_zero : numRowsCalc 50 10 0 = 2 := by
  unfold numRowsCalc rowHeight
  rw [Int.floor_eq_iff]
  push_cast
  constructor
  · rw [le_div_iff₀ (by positivity)]
    nlinarith [sqrt3_sq, sqrt3_pos]
  · rw [div_lt_iff₀ (by positivity)]
    nlinarith [sqrt3_sq, sqrt3_pos]

/-- Row-count value for `R = 50`, `f = 30` at the initial offset:
`floor(10 / (30 sqrt 3)) = 0`. -/
lemma nr_50_30_off : numRowsCalc 50 30 (50 * 0.1) = 0 := by
  unfold numRowsCalc rowHeight
  rw [Int.floor_eq_iff]
  push_cast
  constructor
  · rw [le_div_iff₀ (by positivity)]
    nlinarith [sqrt3_sq, sqrt3_pos]
  · rw [div_lt_iff₀ (by positivity)]
    nlinarith [sqrt3_sq, sqrt3_pos]

/-- Row-count value for `R = 50`, `f = 30` at offset `0`:
`floor(20 / (30 sqrt 3)) = 0`. -/
lemma nr_50_30_zero : numRowsCalc 50 30 0 = 0 := by
  unfold numRowsCalc rowHeight
  rw [Int.floor_eq_iff]
  push_cast
  constructor
  · rw [le_div_iff₀ (by positivity)]
    nlinarith [sqrt3_sq, sqrt3_pos]
  · rw [div_lt_iff₀ (by positivity)]
    nlinarith [sqrt3_sq, sqrt3_pos]

/-- Row-count value for `R = 50`, `f = 60` at the initial offset:
`floor(-20 / (60 sqrt 3)) = -1`. -/
lemma nr_50_60_off : numRowsCalc 50 60 (50 * 0.1) = -1 := by
  unfold numRowsCalc rowHeight
  rw [Int.floor_eq_iff]
  push_cast
  constructor
  · rw [le_div_iff₀ (by positivity)]
    nlinarith [sqrt3_sq, sqrt3_pos]
  · rw [div_lt_iff₀ (by positivity)]
    nlinarith [sqrt3_sq, sqrt3_pos]

/-- Row-count value for `R = 50`, `f = 60` at offset `0`:
`floor(-10 / (60 sqrt 3)) = -1`. -/
lemma nr_50_60_zero : numRowsCalc 50 60 0 = -1 := by
  unfold numRowsCalc rowHeight
  rw [Int.floor_eq_iff]
  push_cast
  constructor
  · rw [le_div_iff₀ (by positivity)]
    nlinarith [sqrt3_sq, sqrt3_pos]
  · rw [div_lt_iff₀ (by positivity)]
    nlinarith [sqrt3_sq, sqrt3_pos]

/-- Twice the triangular list sum. -/
lemma numWells_nat_twice (k : ℕ) :
    2 * ((List.range k).map (fun i => i + 1)).sum = k * (k + 1) := by
  induction k with
  | zero => simp
  | succ n ih =>
    rw [List.range_succ, List.map_append, List.sum_append]
    simp only [List.map_cons, List.map_nil, List.sum_cons, List.sum_nil]
    rw [Nat.mul_add, ih]
    ring

/-- Python's `np.sum(1 + np.arange(n))` is the triangular number `n (n + 1) / 2` for
every row count `n ≥ -1` (negative row counts below `-1` cannot arise from
positive inputs). -/
lemma numWellsOf_eq_tri (n : ℤ) (h : -1 ≤ n) : (numWellsOf n : ℤ) = n * (n + 1) / 2 := by
  rcases lt_or_le n 0 with hneg | hpos
  · have hn : n = -1 := le_antisymm (by omega) h
    subst hn
    rfl
  · obtain ⟨k, rfl⟩ := Int.eq_ofNat_of_zero_le hpos
    have h2 := numWells_nat_twice k
    have hS : numWellsOf (k : ℤ) = ((List.range k).map (fun i => i + 1)).sum := by
      unfold numWellsOf
      rw [Int.toNat_natCast]
    rw [hS]
    have hprod : ((k : ℤ)) * ((k : ℤ) + 1)
        = ((2 * ((List.range k).map (fun i => i + 1)).sum : ℕ) : ℤ) := by
      rw [h2]; push_cast; ring
    rw [hprod]
    push_cast
    omega

/-- The number of well centres generated equals `np.sum(1 + np.arange(n))`. -/
lemma sectionLocs_length (f off : ℝ) (n : ℤ) :
    (sectionLocs f off n).length = numWellsOf n := by
  unfold sectionLocs numWellsOf
  rw [List.length_flatMap]
  simp [Function.comp_def, rowXs]

/-- Two successive rotations compose additively. -/
lemma rotatePoint_rotatePoint (a b : ℝ) (p : ℝ × ℝ) :
    rotatePoint a (rotatePoint b p) = rotatePoint (a + b) p := by
  unfold rotatePoint
  rw [show -(a + b) * (Real.pi / 180) = -a * (Real.pi / 180) + -b * (Real.pi / 180) by ring,
      Real.cos_add, Real.sin_add, Prod.mk.injEq]
  constructor <;> ring

/-- A full 360-degree rotation is the identity. -/
lemma rotatePoint_360 (p : ℝ × ℝ) : rotatePoint 360 p = p := by
  unfold rotatePoint
  rw [show -(360 : ℝ) * (Real.pi / 180) = -(2 * Real.pi) by ring,
      Real.cos_neg, Real.sin_neg, Real.cos_two_pi, Real.sin_two_pi]
  simp

/-- Setting `well_sep = 0` makes `row_height` zero; the real-number model evaluates the
division-by-zero to `0` (Python instead raises at `int(...)`). -/
lemma num_rows_of_well_sep_zero (R off : ℝ) : numRowsCalc R 0 off = 0 := by
  unfold numRowsCalc rowHeight
  rw [zero_mul, div_zero, Int.floor_zero]

/-- With positive radius and feature size, the final row count is at least `-1`. -/
lemma mkSectionCore_num_rows_ge (R f : ℝ) (hR : 0 < R) (hf : 0 < f) :
    -1 ≤ (mkSectionCore R f).num_rows := by
  show -1 ≤ numRowsCalc R f (finalOffset R f)
  unfold finalOffset
  by_cases h : numRowsCalc R f (R * 0.1) ≤ 1
  · rw [if_pos h]
    unfold numRowsCalc rowHeight
    rw [Int.le_floor]
    push_cast
    rw [le_div_iff₀ (by positivity)]
    nlinarith [sqrt3_ge_one]
  · rw [if_neg h]
    omega

/-- A freshly constructed section stores exactly `num_wells` well centres. -/
lemma mkSectionCore_locs_length (R f : ℝ) :
    (mkSectionCore R f).locs.length = (mkSectionCore R f).num_wells := by
  show (sectionLocs f (finalOffset R f) (numRowsCalc R f (finalOffset R f))).length = _
  rw [sectionLocs_length]
  rfl

lemma applyRotation_locs_length (a : ℝ) (s : DerenzoSection) :
    (applyRotation a s).locs.length = s.locs.length := by
  show (s.locs.map (rotatePoint a)).length = _
  rw [List.length_map]

lemma applyRotation_num_wells (a : ℝ) (s : DerenzoSection) :
    (applyRotation a s).num_wells = s.num_wells := rfl

/-- Membership in the section list of a constructed phantom. -/
lemma mem_sections (R d : ℝ) (seps : List ℝ) (s : DerenzoSection)
    (hs : s ∈ (mkPhantomCore R seps d).sections) :
    ∃ fa ∈ seps.zip sectionAngles, s = applyRotation fa.2 (mkSectionCore R fa.1) := by
  obtain ⟨fa, hfa, hs'⟩ := List.mem_map.mp hs
  exact ⟨fa, hfa, hs'.symm⟩

/-- A rotated constructed section with at least one well has a positive well area
(its feature size cannot be zero). -/
lemma well_area_pos_of_wells (R f a : ℝ)
    (h : 1 ≤ (applyRotation a (mkSectionCore R f)).num_wells) :
    0 < (applyRotation a (mkSectionCore R f)).well_area := by
  have hf : f ≠ 0 := by
    intro hf0
    subst hf0
    have hzero : (applyRotation a (mkSectionCore R 0)).num_wells = 0 := by
      show numWellsOf (numRowsCalc R 0 (finalOffset R 0)) = 0
      rw [num_rows_of_well_sep_zero]
      rfl
    omega
  show 0 < Real.pi * ((f / 2) ^ 2)
  have h2 : 0 < (f / 2) ^ 2 := by
    rcases lt_or_gt_of_ne hf with h' | h' <;> nlinarith
  exact mul_pos Real.pi_pos h2

/-- A phantom with at least one well has positive total well area. -/
lemma area_pos_of_wells (R d : ℝ) (seps : List ℝ)
    (h : 1 ≤ (mkPhantomCore R seps d).num_wells) :
    0 < (mkPhantomCore R seps d).area := by
  have hex : ∃ s ∈ (mkPhantomCore R seps d).sections, 1 ≤ s.num_wells := by
    by_contra hall
    push_neg at hall
    have hzero : (mkPhantomCore R seps d).num_wells = 0 := by
      show ((mkPhantomCore R seps d).sections.map DerenzoSection.num_wells).sum = 0
      apply List.sum_eq_zero
      intro x hx
      obtain ⟨s, hs, rfl⟩ := List.mem_map.mp hx
      have := hall s hs
      omega
    omega
  obtain ⟨s, hs, hws⟩ := hex
  have hwa : 0 < s.well_area := by
    obtain ⟨fa, hfa, rfl⟩ := mem_sections R d seps s hs
    exact well_area_pos_of_wells R fa.1 fa.2 hws
  have hta : 0 < s.total_area := by
    have hcast : (1 : ℝ) ≤ (s.num_wells : ℝ) := by exact_mod_cast hws
    show 0 < (s.num_wells : ℝ) * s.well_area
    nlinarith
  have hmem : s.total_area ∈ (mkPhantomCore R seps d).sections.map DerenzoSection.total_area :=
    List.mem_map_of_mem _ hs
  have hnonneg : ∀ x ∈ (mkPhantomCore R seps d).sections.map DerenzoSection.total_area,
      (0 : ℝ) ≤ x := by
    intro x hx
    obtain ⟨t, ht, rfl⟩ := List.mem_map.mp hx
    have h1 : (0 : ℝ) ≤ (t.num_wells : ℝ) := Nat.cast_nonneg _
    have h2 : (0 : ℝ) ≤ t.well_area := by
      show (0 : ℝ) ≤ Real.pi * t.r ^ 2
      positivity
    exact mul_nonneg h1 h2
  calc (0 : ℝ) < s.total_area := hta
    _ ≤ _ := List.single_le_sum hnonneg _ hmem

/-- Under `equal_activity` the export loop never raises, and the file contents
are the concatenation of the per-well blocks in section order. -/
lemma exportLoop_equal_activity (p : DerenzoPhantom) (E g : ℝ)
    (l : List DerenzoSection) (acc : List MacLine) :
    exportLoop p E g "equal_activity" l acc
      = (Except.ok (), acc ++ l.flatMap (fun s =>
          s.locs.flatMap (wellBlock p g (E * (s.well_area / p.area)) s))) := by
  induction l generalizing acc with
  | nil => simp [exportLoop]
  | cons s rest ih =>
    have hse : sectionEvents p E "equal_activity" s
        = Except.ok (E * (s.well_area / p.area)) := by
      unfold sectionEvents
      rw [if_pos rfl]
    simp only [exportLoop, hse]
    rw [ih, List.flatMap_cons, List.append_assoc]

/-- For `R = 50`, `f = 10` the first row count is `1 ≤ 1`, so the fallback
resets the offset to `0`. -/
lemma finalOffset_50_10 : finalOffset 50 10 = 0 := by
  unfold finalOffset
  rw [if_pos (le_of_eq nr_50_10_off)]

lemma mkSectionCore_50_10_num_rows : (mkSectionCore 50 10).num_rows = 2 := by
  show numRowsCalc 50 10 (finalOffset 50 10) = 2
  rw [finalOffset_50_10, nr_50_10_zero]

lemma mkSectionCore_50_10_num_wells : (mkSectionCore 50 10).num_wells = 3 := by
  show numWellsOf ((mkSectionCore 50 10).num_rows) = 3
  rw [mkSectionCore_50_10_num_rows]
  rfl

/-- The worked example phantom (`radius = 50`, feature sizes `10..1`) has at
least one well: its first section alone has three. -/
lemma examplePhantom_num_wells_ge :
    1 ≤ (mkPhantomCore 50 [10, 8, 6, 4, 2, 1] 0).num_wells := by
  have hsec : (mkPhantomCore 50 [10, 8, 6, 4, 2, 1] 0).sections
      = applyRotation 0 (mkSectionCore 50 10) ::
        (([(8 : ℝ), 6, 4, 2, 1].zip [(60 : ℝ), 120, 180, 240, 300]).map
          (fun fa => applyRotation fa.2 (mkSectionCore 50 fa.1))) := rfl
  show 1 ≤ ((mkPhantomCore 50 [10, 8, 6, 4, 2, 1] 0).sections.map DerenzoSection.num_wells).sum
  rw [hsec, List.map_cons, List.sum_cons, applyRotation_num_wells,
    mkSectionCore_50_10_num_wells]
  omega

lemma finalOffset_50_30 : finalOffset 50 30 = 0 := by
  unfold finalOffset
  rw [if_pos (show numRowsCalc 50 30 (50 * 0.1) ≤ 1 by rw [nr_50_30_off]; decide)]

lemma mkSectionCore_50_30_num_wells : (mkSectionCore 50 30).num_wells = 0 := by
  show numWellsOf (numRowsCalc 50 30 (finalOffset 50 30)) = 0
  rw [finalOffset_50_30, nr_50_30_zero]
  rfl

/-- Six sections of feature size `30` in a radius-`50` phantom all degrade to
zero wells, so the whole phantom has zero wells. -/
lemma zeroPhantom_num_wells :
    (mkPhantomCore 50 [30, 30, 30, 30, 30, 30] 0).num_wells = 0 := by
  show ((mkPhantomCore 50 [30, 30, 30, 30, 30, 30] 0).sections.map
    DerenzoSection.num_wells).sum = 0
  have hsec : (mkPhantomCore 50 [30, 30, 30, 30, 30, 30] 0).sections
      = [applyRotation 0 (mkSectionCore 50 30), applyRotation 60 (mkSectionCore 50 30),
         applyRotation 120 (mkSectionCore 50 30), applyRotation 180 (mkSectionCore 50 30),
         applyRotation 240 (mkSectionCore 50 30), applyRotation 300 (mkSectionCore 50 30)] := rfl
  rw [hsec]
  simp only [List.map_cons, List.map_nil, List.sum_cons, List.sum_nil,
    applyRotation_num_wells, mkSectionCore_50_30_num_wells]
  rfl

lemma mkSectionCore_50_60_num_rows : (mkSectionCore 50 60).num_rows = -1 := by
  show numRowsCalc 50 60 (finalOffset 50 60) = -1
  unfold finalOffset
  rw [if_pos (show numRowsCalc 50 60 (50 * 0.1) ≤ 1 by rw [nr_50_60_off]; decide),
    nr_50_60_zero]

/-! ### Claim theorems -/

/-- Claim C5, counterexample: the claim says the final row count is "clamped
to ≥ 0", but the code's `int(np.floor(...))` is never clamped — for
`R = 50`, `f = 60` (both positive) the final row count is `-1 < 0`. -/
theorem claim5_counterexample :
    (mkSectionCore 50 60).num_rows = -1 ∧ (mkSectionCore 50 60).num_rows < 0 := by
  constructor
  · exact mkSectionCore_50_60_num_rows
  · rw [mkSectionCore_50_60_num_rows]
    decide

/-- Claim C5 (amended): the final row count is
`floor((R - (2*0.1*R + f)) / (f*sqrt 3))`, with the computation retried at
offset `0` whenever that value is `≤ 1`, and with the non-fatal warning
emitted exactly when the retried value is still `≤ 1`; the result is NOT
clamped to `≥ 0`.  For `R = 50`, `f = 10` the fallback is triggered
(`section_offset` becomes `0`) and yields `2` rows and `3` wells. -/
theorem claim5_amended : (∀ R f : ℝ,
      (mkSectionCore R f).num_rows =
        (if ⌊(R - (2 * (0.1 * R) + f)) / (f * Real.sqrt 3)⌋ ≤ 1
         then ⌊(R - f) / (f * Real.sqrt 3)⌋
         else ⌊(R - (2 * (0.1 * R) + f)) / (f * Real.sqrt 3)⌋) ∧
      ((mkSectionCore R f).warned ↔
        (⌊(R - (2 * (0.1 * R) + f)) / (f * Real.sqrt 3)⌋ ≤ 1 ∧
         ⌊(R - f) / (f * Real.sqrt 3)⌋ ≤ 1))) ∧
    (mkSectionCore 50 10).section_offset = 0 ∧
    (mkSectionCore 50 10).num_rows = 2 ∧
    (mkSectionCore 50 10).num_wells = 3 := by
  have e1 : ∀ R f : ℝ, ⌊(R - (2 * (0.1 * R) + f)) / (f * Real.sqrt 3)⌋
      = numRowsCalc R f (R * 0.1) := by
    intro R f
    unfold numRowsCalc rowHeight
    congr 1
    ring
  have e2 : ∀ R f : ℝ, ⌊(R - f) / (f * Real.sqrt 3)⌋ = numRowsCalc R f 0 := by
    intro R f
    unfold numRowsCalc rowHeight
    congr 1
    ring
  refine ⟨fun R f => ⟨?_, ?_⟩, finalOffset_50_10, mkSectionCore_50_10_num_rows,
    mkSectionCore_50_10_num_wells⟩
  · rw [e1, e2]
    show numRowsCalc R f (finalOffset R f) = _
    unfold finalOffset
    split_ifs with h
    · rfl
    · rfl
  · rw [e1, e2]
    exact Iff.rfl

/-- Claim C6: every constructed section's `num_wells` is the triangular number
of its final row count and equals the length of its well-centre list, and the
phantom total is the sum over its sections. -/
theorem claim6_triangular (R : ℝ) (seps : List ℝ) (d : ℝ)
    (hR : 0 < R) (hf : ∀ f ∈ seps, 0 < f) :
    (∀ s ∈ (mkPhantomCore R seps d).sections,
        (s.num_wells : ℤ) = s.num_rows * (s.num_rows + 1) / 2 ∧
        s.num_wells = s.locs.length) ∧
    (mkPhantomCore R seps d).num_wells
      = ((mkPhantomCore R seps d).sections.map DerenzoSection.num_wells).sum := by
  refine ⟨?_, rfl⟩
  intro s hs
  obtain ⟨⟨f, a⟩, hfa, rfl⟩ := mem_sections R d seps s hs
  have hfpos : 0 < f := hf f (List.of_mem_zip hfa).1
  constructor
  · have hge : -1 ≤ (applyRotation a (mkSectionCore R f)).num_rows := by
      show -1 ≤ (mkSectionCore R f).num_rows
      exact mkSectionCore_num_rows_ge R f hR hfpos
    exact numWellsOf_eq_tri _ hge
  · rw [applyRotation_num_wells, applyRotation_locs_length, mkSectionCore_locs_length]

/-- Claim C6, witness: the first section of the worked example phantom. -/
theorem claim6_witness :
    (applyRotation 0 (mkSectionCore 50 10)).num_wells
        = (applyRotation 0 (mkSectionCore 50 10)).locs.length ∧
    (mkPhantomCore 50 [10, 8, 6, 4, 2, 1] 0).num_wells
      = ((mkPhantomCore 50 [10, 8, 6, 4, 2, 1] 0).sections.map
          DerenzoSection.num_wells).sum := by
  have h := claim6_triangular 50 [10, 8, 6, 4, 2, 1] 0 (by norm_num)
    (by intro f hf; fin_cases hf <;> norm_num)
  refine ⟨?_, h.2⟩
  have hmem : applyRotation 0 (mkSectionCore 50 10)
      ∈ (mkPhantomCore 50 [10, 8, 6, 4, 2, 1] 0).sections := List.Mem.head _
  exact (h.1 _ hmem).2

/-- Claim C9: applying `apply_rotation` six times by 60 degrees (total 360
degrees, positive = counter-clockwise) reproduces the well-centre list
exactly (real-number model). -/
theorem claim9_rotation_360 (s : DerenzoSection) :
    (applyRotation 60 (applyRotation 60 (applyRotation 60 (applyRotation 60
      (applyRotation 60 (applyRotation 60 s)))))).locs = s.locs := by
  have hpt : ∀ p : ℝ × ℝ, rotatePoint 60 (rotatePoint 60 (rotatePoint 60 (rotatePoint 60
      (rotatePoint 60 (rotatePoint 60 p))))) = p := by
    intro p
    rw [rotatePoint_rotatePoint, rotatePoint_rotatePoint, rotatePoint_rotatePoint,
      rotatePoint_rotatePoint, rotatePoint_rotatePoint]
    norm_num
    exact rotatePoint_360 p
  show (((((s.locs.map (rotatePoint 60)).map (rotatePoint 60)).map (rotatePoint 60)).map
    (rotatePoint 60)).map (rotatePoint 60)).map (rotatePoint 60) = s.locs
  simp only [List.map_map]
  calc s.locs.map (rotatePoint 60 ∘ rotatePoint 60 ∘ rotatePoint 60 ∘ rotatePoint 60 ∘
        rotatePoint 60 ∘ rotatePoint 60)
      = s.locs.map id := List.map_congr_left (fun p _ => hpt p)
    _ = s.locs := List.map_id _

/-- Claim C2, counterexample: a 5-element feature-size sequence does NOT make
construction fail — `zip` truncates and a phantom with 5 sections is silently
built. -/
theorem claim2_counterexample :
    mkDerenzoPhantom 50 [10, 8, 6, 4, 2] 0
      = Except.ok (mkPhantomCore 50 [10, 8, 6, 4, 2] 0) ∧
    (mkPhantomCore 50 [10, 8, 6, 4, 2] 0).sections.length = 5 := by
  constructor
  · unfold mkDerenzoPhantom
    rw [if_pos]
    intro fa hfa
    simp only [sectionAngles, List.zip_cons_cons, List.zip_nil_left] at hfa
    fin_cases hfa <;> norm_num
  · rfl

/-- Claim C2 (amended): `DerenzoPhantom.__init__` performs no length
validation; whenever all (zipped) feature sizes are nonzero, construction
succeeds and the number of sections is `min (length of the sequence) 6`. -/
theorem claim2_amended (R : ℝ) (seps : List ℝ) (d : ℝ)
    (h : ∀ f ∈ seps, f ≠ 0) :
    mkDerenzoPhantom R seps d = Except.ok (mkPhantomCore R seps d) ∧
    (mkPhantomCore R seps d).sections.length = min seps.length 6 := by
  constructor
  · unfold mkDerenzoPhantom
    rw [if_pos]
    intro fa hfa
    obtain ⟨f, a⟩ := fa
    exact h f (List.of_mem_zip hfa).1
  · show ((seps.zip sectionAngles).map _).length = _
    rw [List.length_map, List.length_zip]
    rfl

/-- Claim C2, witness: a 4-element sequence yields 4 sections without error. -/
theorem claim2_witness :
    mkDerenzoPhantom 50 [10, 8, 6, 4] 0 = Except.ok (mkPhantomCore 50 [10, 8, 6, 4] 0) ∧
    (mkPhantomCore 50 [10, 8, 6, 4] 0).sections.length = min ([(10 : ℝ), 8, 6, 4].length) 6 :=
  claim2_amended 50 [10, 8, 6, 4] 0 (by intro f hf; fin_cases hf <;> norm_num)

/-- Claim C4, counterexample: a negative feature size or a negative radius
does NOT fail at construction time — both build a section successfully. -/
theorem claim4_counterexample :
    mkSection 50 (-10) = Except.ok (mkSectionCore 50 (-10)) ∧
    mkSection (-50) 10 = Except.ok (mkSectionCore (-50) 10) := by
  constructor <;> (unfold mkSection; rw [if_neg (by norm_num)])

/-- Claim C4 (amended): construction validates neither sign.  Any nonzero
feature size (and any radius, positive or not) constructs successfully;
`feature_size = 0` fails, but with an `OverflowError` from the division by a
zero row height, not an invalid-argument check; and a negative feature size
with positive radius silently yields a degraded section with zero wells. -/
theorem claim4_amended (R f : ℝ) :
    (f ≠ 0 → mkSection R f = Except.ok (mkSectionCore R f)) ∧
    mkSection R 0 = Except.error "OverflowError" ∧
    (0 < R → f < 0 →
      (mkSectionCore R f).num_wells = 0 ∧ (mkSectionCore R f).locs = []) := by
  refine ⟨fun hf => ?_, ?_, fun hR hf => ?_⟩
  · unfold mkSection
    rw [if_neg hf]
  · unfold mkSection
    rw [if_pos rfl]
  · have hden : rowHeight f < 0 := by
      unfold rowHeight
      exact mul_neg_of_neg_of_pos hf sqrt3_pos
    have hn0 : numRowsCalc R f (R * 0.1) < 0 := by
      unfold numRowsCalc
      rw [show (0 : ℤ) = ((0 : ℤ)) from rfl, Int.floor_lt]
      push_cast
      apply div_neg_of_pos_of_neg _ hden
      nlinarith
    have hoff : finalOffset R f = 0 := by
      unfold finalOffset
      rw [if_pos (by omega : numRowsCalc R f (R * 0.1) ≤ 1)]
    have hn : numRowsCalc R f 0 < 0 := by
      unfold numRowsCalc
      rw [show (0 : ℤ) = ((0 : ℤ)) from rfl, Int.floor_lt]
      push_cast
      apply div_neg_of_pos_of_neg _ hden
      nlinarith
    constructor
    · show numWellsOf (numRowsCalc R f (finalOffset R f)) = 0
      rw [hoff]
      unfold numWellsOf
      rw [Int.toNat_of_nonpos (by omega)]
      rfl
    · show sectionLocs f (finalOffset R f) (numRowsCalc R f (finalOffset R f)) = []
      rw [hoff]
      unfold sectionLocs
      rw [Int.toNat_of_nonpos (by omega)]
      rfl

/-- Claim C4, witness: `R = 50`, `f = -10` constructs a zero-well section. -/
theorem claim4_witness :
    mkSection 50 (-10) = Except.ok (mkSectionCore 50 (-10)) ∧
    (mkSectionCore 50 (-10)).num_wells = 0 :=
  ⟨(claim4_amended 50 (-10)).1 (by norm_num),
    ((claim4_amended 50 (-10)).2.2 (by norm_num) (by norm_num)).1⟩

/-- Claim C7, counterexample: an unrecognized `event_mode` does raise
`ValueError`, but the file has already been created by `open(fname, 'w')` —
the on-disk state is NOT unchanged. -/
theorem claim7_counterexample :
    (export_to_G4gps (mkPhantomCore 50 [10, 8, 6, 4, 2, 1] 0) 100 661 "bad_mode").2.created
      = true ∧
    (export_to_G4gps (mkPhantomCore 50 [10, 8, 6, 4, 2, 1] 0) 100 661 "bad_mode").1
      = Except.error "ValueError" := by
  constructor
  · rfl
  · have hse : ∀ s, sectionEvents (mkPhantomCore 50 [10, 8, 6, 4, 2, 1] 0) 100 "bad_mode" s
        = Except.error "ValueError" := by
      intro s
      unfold sectionEvents
      rw [if_neg (by decide), if_neg (by decide), if_neg (by decide)]
    show (exportLoop (mkPhantomCore 50 [10, 8, 6, 4, 2, 1] 0) 100 661 "bad_mode"
      (mkPhantomCore 50 [10, 8, 6, 4, 2, 1] 0).sections []).1 = _
    have hsec : (mkPhantomCore 50 [10, 8, 6, 4, 2, 1] 0).sections
        = applyRotation 0 (mkSectionCore 50 10) ::
          (([(8 : ℝ), 6, 4, 2, 1].zip [(60 : ℝ), 120, 180, 240, 300]).map
            (fun fa => applyRotation fa.2 (mkSectionCore 50 fa.1))) := rfl
    rw [hsec]
    simp only [exportLoop, hse]

/-- Claim C7 (amended): an unrecognized `event_mode` raises `ValueError` with
no well blocks written, but only after the file has been opened in write
mode — an empty (created/truncated) file is left on disk. -/
theorem claim7_amended (p : DerenzoPhantom) (E g : ℝ) (m : String)
    (h1 : m ≠ "equal_activity") (h2 : m ≠ "equal_counts") (h3 : m ≠ "subsection_area")
    (hs : p.sections ≠ []) :
    export_to_G4gps p E g m = (Except.error "ValueError", ⟨true, []⟩) := by
  obtain ⟨s, rest, hrest⟩ := List.exists_cons_of_ne_nil hs
  have hse : sectionEvents p E m s = Except.error "ValueError" := by
    unfold sectionEvents
    rw [if_neg h1, if_neg h2, if_neg h3]
  unfold export_to_G4gps
  rw [hrest]
  simp only [exportLoop, hse]

/-- Claim C7, witness. -/
theorem claim7_witness :
    export_to_G4gps (mkPhantomCore 50 [10, 8, 6, 4, 2, 1] 0) 100 661 "bogus"
      = (Except.error "ValueError", ⟨true, []⟩) :=
  claim7_amended _ 100 661 "bogus" (by decide) (by decide) (by decide)
    (List.cons_ne_nil _ _)

/-- Claim C8: under `equal_activity`, each section's wells all receive
`num_events * well_area / total_area` events, and these allocations, weighted
by the per-section well counts, sum to `num_events` for any phantom with at
least one well. -/
theorem claim8_equal_activity (R : ℝ) (seps : List ℝ) (d E : ℝ)
    (hw : 1 ≤ (mkPhantomCore R seps d).num_wells) :
    (∀ s ∈ (mkPhantomCore R seps d).sections,
        sectionEvents (mkPhantomCore R seps d) E "equal_activity" s
          = Except.ok (E * (s.well_area / (mkPhantomCore R seps d).area))) ∧
    ((mkPhantomCore R seps d).sections.map
        (fun s => E * (s.well_area / (mkPhantomCore R seps d).area) * (s.num_wells : ℝ))).sum
      = E := by
  have hA : 0 < (mkPhantomCore R seps d).area := area_pos_of_wells R d seps hw
  constructor
  · intro s hs
    unfold sectionEvents
    rw [if_pos rfl]
  · have hmap : ((mkPhantomCore R seps d).sections.map
        (fun s => E * (s.well_area / (mkPhantomCore R seps d).area) * (s.num_wells : ℝ)))
        = (mkPhantomCore R seps d).sections.map
          (fun s => (E / (mkPhantomCore R seps d).area)
            * ((s.num_wells : ℝ) * s.well_area)) := by
      apply List.map_congr_left
      intro s _
      ring
    rw [hmap, List.sum_map_mul_left]
    have harea : ((mkPhantomCore R seps d).sections.map
        (fun s => (s.num_wells : ℝ) * s.well_area)).sum = (mkPhantomCore R seps d).area := rfl
    rw [harea]
    exact div_mul_cancel₀ E hA.ne'

/-- Claim C8, witness: the worked example phantom with 100 events. -/
theorem claim8_witness :
    ((mkPhantomCore 50 [10, 8, 6, 4, 2, 1] 0).sections.map
        (fun s => 100 * (s.well_area / (mkPhantomCore 50 [10, 8, 6, 4, 2, 1] 0).area)
          * (s.num_wells : ℝ))).sum = 100 :=
  (claim8_equal_activity 50 [10, 8, 6, 4, 2, 1] 0 100 examplePhantom_num_wells_ge).2

/-- Claim C10: `equal_counts` divides by `num_wells` unguarded; the division
is well-defined for every phantom with at least one well, but the all-30s
phantom is constructible, has zero wells, and its export under `equal_counts`
evaluates the division with divisor `0` without raising. -/
theorem claim10_division (E : ℝ) :
    (∀ (R : ℝ) (seps : List ℝ) (d : ℝ),
        1 ≤ (mkPhantomCore R seps d).num_wells →
        ((mkPhantomCore R seps d).num_wells : ℝ) ≠ 0) ∧
    mkDerenzoPhantom 50 [30, 30, 30, 30, 30, 30] 0
      = Except.ok (mkPhantomCore 50 [30, 30, 30, 30, 30, 30] 0) ∧
    (mkPhantomCore 50 [30, 30, 30, 30, 30, 30] 0).num_wells = 0 ∧
    (∀ s ∈ (mkPhantomCore 50 [30, 30, 30, 30, 30, 30] 0).sections,
        sectionEvents (mkPhantomCore 50 [30, 30, 30, 30, 30, 30] 0) E "equal_counts" s
          = Except.ok (E / (0 : ℝ))) := by
  refine ⟨?_, ?_, zeroPhantom_num_wells, ?_⟩
  · intro R seps d h
    have hp : (0 : ℕ) < (mkPhantomCore R seps d).num_wells := h
    exact_mod_cast hp.ne'
  · unfold mkDerenzoPhantom
    rw [if_pos]
    intro fa hfa
    simp only [sectionAngles, List.zip_cons_cons, List.zip_nil_left] at hfa
    fin_cases hfa <;> norm_num
  · intro s hs
    unfold sectionEvents
    rw [if_neg (by decide), if_pos rfl, zeroPhantom_num_wells]
    norm_num

/-- Claim C10, witness: the worked example phantom has a nonzero divisor. -/
theorem claim10_witness :
    ((mkPhantomCore 50 [10, 8, 6, 4, 2, 1] 0).num_wells : ℝ) ≠ 0 :=
  (claim10_division 0).1 50 [10, 8, 6, 4, 2, 1] 0 examplePhantom_num_wells_ge

/-- Claim C1 (code bug): a phantom built with `cyl_height = 0` exports every
well with the `Volume`/`Cylinder` branch and a `halfz 0` line, never the
`Plane`/`Circle` branch, because `export_to_G4gps_macro` passes
`halfz=self.depth` (a float, never `None`).  The class docstring says a depth
of `0` means a 2D phantom, which `export_to_G4mac` would render as
`Plane`/`Circle` with no `halfz` — that branch is unreachable here. -/
theorem claim1_depth_zero (R : ℝ) (seps : List ℝ) (E g : ℝ) :
    (export_to_G4gps (mkPhantomCore R seps 0) E g "equal_activity").2.contents
      = (mkPhantomCore R seps 0).sections.flatMap (fun s =>
          s.locs.flatMap (wellBlock (mkPhantomCore R seps 0) g
            (E * (s.well_area / (mkPhantomCore R seps 0).area)) s)) ∧
    (∀ (ne : ℝ) (s : DerenzoSection) (xy : ℝ × ℝ),
        MacLine.posType "Volume" ∈ wellBlock (mkPhantomCore R seps 0) g ne s xy ∧
        MacLine.posShape "Cylinder" ∈ wellBlock (mkPhantomCore R seps 0) g ne s xy ∧
        MacLine.halfzLine 0 ∈ wellBlock (mkPhantomCore R seps 0) g ne s xy ∧
        MacLine.posType "Plane" ∉ wellBlock (mkPhantomCore R seps 0) g ne s xy ∧
        MacLine.posShape "Circle" ∉ wellBlock (mkPhantomCore R seps 0) g ne s xy) ∧
    MacLine.halfzLine 0 ∈
      (export_to_G4gps (mkPhantomCore 50 [10, 8, 6, 4, 2, 1] 0) E g
        "equal_activity").2.contents := by
  have hblock : ∀ (ne : ℝ) (s : DerenzoSection) (xy : ℝ × ℝ),
      wellBlock (mkPhantomCore R seps 0) g ne s xy
        = [MacLine.particleGamma, MacLine.posType "Volume", MacLine.posShape "Cylinder",
           MacLine.centre xy.1 xy.2 0, MacLine.posRadius s.r, MacLine.halfzLine 0,
           MacLine.angIso, MacLine.eneTypeMono, MacLine.eneMono g, MacLine.beamOn ne] := by
    intro ne s xy
    rfl
  refine ⟨?_, ?_, ?_⟩
  · show (exportLoop (mkPhantomCore R seps 0) E g "equal_activity"
      (mkPhantomCore R seps 0).sections []).2 = _
    rw [exportLoop_equal_activity]
    exact List.nil_append _
  · intro ne s xy
    rw [hblock]
    refine ⟨by simp, by simp, by simp, by simp, by simp⟩
  · show MacLine.halfzLine 0 ∈ (exportLoop (mkPhantomCore 50 [10, 8, 6, 4, 2, 1] 0) E g
      "equal_activity" (mkPhantomCore 50 [10, 8, 6, 4, 2, 1] 0).sections []).2
    rw [exportLoop_equal_activity, List.nil_append]
    have hlen : (applyRotation 0 (mkSectionCore 50 10)).locs ≠ [] := by
      have h3 : (applyRotation 0 (mkSectionCore 50 10)).locs.length = 3 := by
        rw [applyRotation_locs_length, mkSectionCore_locs_length,
          mkSectionCore_50_10_num_wells]
      intro hnil
      rw [hnil] at h3
      simp at h3
    obtain ⟨xy, hxy⟩ := List.exists_mem_of_ne_nil _ hlen
    apply List.mem_flatMap.mpr
    refine ⟨applyRotation 0 (mkSectionCore 50 10), List.Mem.head _, ?_⟩
    apply List.mem_flatMap.mpr
    refine ⟨xy, hxy, ?_⟩
    have hblock2 : wellBlock (mkPhantomCore 50 [10, 8, 6, 4, 2, 1] 0) g
        (E * ((applyRotation 0 (mkSectionCore 50 10)).well_area
          / (mkPhantomCore 50 [10, 8, 6, 4, 2, 1] 0).area))
        (applyRotation 0 (mkSectionCore 50 10)) xy
        = [MacLine.particleGamma, MacLine.posType "Volume", MacLine.posShape "Cylinder",
           MacLine.centre xy.1 xy.2 0,
           MacLine.posRadius (applyRotation 0 (mkSectionCore 50 10)).r, MacLine.halfzLine 0,
           MacLine.angIso, MacLine.eneTypeMono, MacLine.eneMono g,
           MacLine.beamOn (E * ((applyRotation 0 (mkSectionCore 50 10)).well_area
             / (mkPhantomCore 50 [10, 8, 6, 4, 2, 1] 0).area))] := rfl
    rw [hblock2]
    simp

/-- Claim C3 (code bug): `to_image` never returns an image for a phantom with
sections — `mm_to_px` is declared `@property` while requiring three positional
arguments, so the attribute access in the section loop raises `TypeError`. -/
theorem claim3_to_image_error :
    to_image (mkPhantomCore 50 [10, 8, 6, 4, 2, 1] 0) 128 1 "equal_counts"
      = Except.error "TypeError" := by
  unfold to_image
  rw [if_neg (by decide)]
  rfl

end Derenzo
